import Mathlib

/-!
Verification of the bonus-tracker core: the Clockify CSV ingestion parser
(`app/services/csv_parser.py`), the bonus calculator
(`app/services/bonus_calculator.py`) and the CSV import endpoint
(`app/routers/imports.py`).

Modelling conventions:
* Python `float` values are modelled as exact rationals (`ℚ`); the float
  literals appearing in the code and spec are exactly representable at the
  scales involved.
* Python strings are Lean `String`s; `str.strip`, `str.split` and
  `str.join` are re-implemented by structural recursion over character
  lists so that concrete runs reduce inside the kernel.
* Fallible Python code is modelled with `Except PyExc`; the exception
  carries the message used by the catch-all handler in `parse_csv`.
-/

set_option maxRecDepth 8000

namespace BonusTracker

/-! ### Python-style string primitives -/

/-- Characters removed by Python `str.strip()` (whitespace). -/
def trimChars (l : List Char) : List Char :=
  ((l.dropWhile Char.isWhitespace).reverse.dropWhile Char.isWhitespace).reverse

/-- Python `str.strip()`. -/
def py_strip (s : String) : String :=
  (trimChars s.data).asString

/-- If `sep` is an initial segment of the character list, return what follows it. -/
def dropSepChars : List Char → List Char → Option (List Char)
  | [], rest => some rest
  | _ :: _, [] => none
  | p :: ps, c :: cs => if c = p then dropSepChars ps cs else none

/-- Worker for `py_split`: left-to-right scan for non-overlapping occurrences of
`sep`, exactly as Python `str.split(sep)`.  The `fuel` argument only makes the
recursion structural; `fuel = length + 1` always suffices for non-empty `sep`. -/
def splitSepAux (sep : List Char) : Nat → List Char → List Char → List (List Char)
  | 0, cur, rest => [cur.reverse ++ rest]
  | _ + 1, cur, [] => [cur.reverse]
  | fuel + 1, cur, c :: cs =>
    match dropSepChars sep (c :: cs) with
    | some rest => cur.reverse :: splitSepAux sep fuel [] rest
    | none => splitSepAux sep fuel (c :: cur) cs

/-- Python `s.split(sep)` for a non-empty separator (Python raises on an empty
separator; the parser only ever splits on `" - "`, `"/"`, `":"` and `"\n"`). -/
def py_split (s sep : String) : List String :=
  if sep.data = [] then [s]
  else (splitSepAux sep.data (s.data.length + 1) [] s.data).map List.asString

/-- Python `sep.join(parts)`. -/
def joinSepList (sep : String) : List String → String
  | [] => ""
  | [x] => x
  | x :: y :: xs => x ++ sep ++ joinSepList sep (y :: xs)

/-- Numeric value of a run of decimal digit characters. -/
def digitsToNat (l : List Char) : Nat :=
  l.foldl (fun n c => 10 * n + (c.toNat - 48)) 0

/-- Decimal digits of a natural number (worker, structural on fuel). -/
def natToDigitsAux : Nat → Nat → List Char → List Char
  | 0, n, acc => Char.ofNat (48 + n % 10) :: acc
  | fuel + 1, n, acc =>
    if n < 10 then Char.ofNat (48 + n) :: acc
    else natToDigitsAux fuel (n / 10) (Char.ofNat (48 + n % 10) :: acc)

/-- Decimal rendering of a natural number, as Python `str(n)` / `f"{n}"`. -/
def natToString (n : Nat) : String :=
  (natToDigitsAux n n []).asString

/-! ### Bonus calculator (`app/services/bonus_calculator.py`) -/

/-- Python `round(x, 2)` on an exact value: round half to even at two decimal
places (banker\x27s rounding, CPython default). -/
def roundHalfToEven (x : ℚ) : ℤ :=
  let n := ⌊x⌋
  let r := x - n
  if r < 1/2 then n
  else if 1/2 < r then n + 1
  else if n % 2 = 0 then n else n + 1

/-- Round to two decimal places (`round(_, 2)`). -/
def round2 (x : ℚ) : ℚ :=
  (roundHalfToEven (100 * x) : ℚ) / 100

/-- Python `a or b` for an optional float `a`: both `None` and `0.0` are falsy
and select `b`. -/
def pyOrFloat (a : Option ℚ) (b : ℚ) : ℚ :=
  match a with
  | none => b
  | some x => if x = 0 then b else x

/-- `calculate_bonus` (bonus_calculator.py lines 4-27).  `rate = hourly_rate
or 0.0`, `onsite_rate = onsite_hourly_rate or rate`, then the rounded sum of
the remote and onsite bonus parts.  The function is total: it never raises. -/
def calculate_bonus (remote_hours onsite_hours : ℚ)
    (hourly_rate onsite_hourly_rate : Option ℚ) (bonus_rate : ℚ) : ℚ :=
  let rate := pyOrFloat hourly_rate 0
  let onsite_rate := pyOrFloat onsite_hourly_rate rate
  let remote_bonus := remote_hours * rate * bonus_rate
  let onsite_bonus := onsite_hours * onsite_rate * bonus_rate
  round2 (remote_bonus + onsite_bonus)

/-! ### Parser data model (`app/services/csv_parser.py`) -/

/-- The calendar date produced by `datetime.strptime(_, "%d/%m/%Y")`. -/
structure PyDate where
  year : Nat
  month : Nat
  day : Nat
deriving DecidableEq, Repr

/-- The time of day produced by `datetime.strptime(_, "%H:%M")`. -/
structure PyTime where
  hour : Nat
  minute : Nat
deriving DecidableEq, Repr

/-- The exceptions that row construction in `_parse_row` can raise: `ValueError`
from `strptime`, and `AttributeError` from `None.strip()` when
`csv.DictReader` filled a short row with its `restval` of `None`.  Both are
listed in the `except` clause of `parse_csv`. -/
inductive PyExc where
  | valueError (msg : String)
  | attributeError (msg : String)
deriving DecidableEq, Repr

/-- Python `f"{exc}"`: the message the exception was built with. -/
def PyExc.message : PyExc → String
  | valueError m => m
  | attributeError m => m

/-- `ParsedTimeEntry` (csv_parser.py lines 9-22). -/
structure ParsedTimeEntry where
  project_id : String
  project_name : String
  client : String
  employee : String
  description : String
  date : PyDate
  start_time : Option PyTime
  end_time : Option PyTime
  duration_decimal : ℚ
  month : String
deriving DecidableEq, Repr

/-- `ParsedProject` (csv_parser.py lines 25-31). -/
structure ParsedProject where
  project_id : String
  name : String
  client : String
deriving DecidableEq, Repr

/-- `ParseResult` (csv_parser.py lines 34-40). -/
structure ParseResult where
  entries : List ParsedTimeEntry
  projects : List ParsedProject
  errors : List String
deriving DecidableEq, Repr

/-! ### Field-level parsing helpers -/

/-- Python `float(s)` on an already-stripped string, restricted to the plain
decimal forms (optional sign, integer digits, optional fractional digits).
Exponent, `inf`/`nan` and underscore forms accepted by Python do not occur in
duration fields and are not modelled.  `none` models the `ValueError` caught
locally in `_parse_row`. -/
def pyFloat (s : String) : Option ℚ :=
  let (neg, l) :=
    match s.data with
    | '-' :: rest => (true, rest)
    | '+' :: rest => (false, rest)
    | rest => (false, rest)
  let intDigits := l.takeWhile Char.isDigit
  let rest := l.dropWhile Char.isDigit
  let sign : Int := if neg then -1 else 1
  match rest with
  | [] =>
    if intDigits = [] then none
    else some (mkRat (sign * digitsToNat intDigits) 1)
  | '.' :: fracRest =>
    let fracDigits := fracRest.takeWhile Char.isDigit
    if fracRest.dropWhile Char.isDigit = [] ∧ ¬(intDigits = [] ∧ fracDigits = []) then
      some (mkRat
        (sign * (digitsToNat intDigits * 10 ^ fracDigits.length + digitsToNat fracDigits))
        (10 ^ fracDigits.length))
    else none
  | _ => none

def isLeapYear (y : Nat) : Bool :=
  (y % 4 == 0 && y % 100 != 0) || y % 400 == 0

def daysInMonth (y m : Nat) : Nat :=
  if m = 2 then (if isLeapYear y then 29 else 28)
  else if m = 4 ∨ m = 6 ∨ m = 9 ∨ m = 11 then 30
  else 31

/-- `_parse_date` (csv_parser.py lines 57-59): strict `DD/MM/YYYY` parse via
`datetime.strptime(date_str.strip(), "%d/%m/%Y")`.  `%d` and `%m` accept one
or two digits, `%Y` exactly four; the resulting triple must be a real
calendar date, otherwise `strptime` raises `ValueError`. -/
def _parse_date (date_str : String) : Except PyExc PyDate :=
  let s := py_strip date_str
  let fail : Except PyExc PyDate :=
    .error (.valueError ("time data " ++ s ++ " does not match format %d/%m/%Y"))
  match py_split s "/" with
  | [ds, ms, ys] =>
    if (ds.data.all Char.isDigit ∧ 1 ≤ ds.data.length ∧ ds.data.length ≤ 2)
        ∧ (ms.data.all Char.isDigit ∧ 1 ≤ ms.data.length ∧ ms.data.length ≤ 2)
        ∧ (ys.data.all Char.isDigit ∧ ys.data.length = 4) then
      let dv := digitsToNat ds.data
      let mv := digitsToNat ms.data
      let yv := digitsToNat ys.data
      if 1 ≤ dv ∧ 1 ≤ mv ∧ mv ≤ 12 ∧ 1 ≤ yv then
        if dv ≤ daysInMonth yv mv then .ok ⟨yv, mv, dv⟩
        else .error (.valueError "day is out of range for month")
      else fail
    else fail
  | _ => fail

/-- A cell value as seen through `row.get`: `csv.DictReader` stores `None`
(`restval`) for header columns missing from a short data row. -/
abbrev PyStr := Option String

/-- Python `value.strip()` where `value` may be `None`: raises
`AttributeError` on `None`, exactly the slip the catch-all in `parse_csv`
is guarding against. -/
def py_strip_opt (v : PyStr) : Except PyExc String :=
  match v with
  | none => .error (.attributeError "NoneType object has no attribute strip")
  | some s => .ok (py_strip s)

/-- `_parse_time` (csv_parser.py lines 62-67): strip, treat the empty string
as absent, otherwise strict `HH:MM` (`%H`/`%M` accept one or two digits,
hour below 24, minute below 60).  The argument is the raw `row.get` value,
so a `None` cell raises `AttributeError` from `.strip()`. -/
def _parse_time (time_val : PyStr) : Except PyExc (Option PyTime) :=
  match time_val with
  | none => .error (.attributeError "NoneType object has no attribute strip")
  | some ts =>
    let t := py_strip ts
    if t = "" then .ok none
    else
      match py_split t ":" with
      | [hs, ms] =>
        if (hs.data.all Char.isDigit ∧ 1 ≤ hs.data.length ∧ hs.data.length ≤ 2)
            ∧ (ms.data.all Char.isDigit ∧ 1 ≤ ms.data.length ∧ ms.data.length ≤ 2) then
          let hv := digitsToNat hs.data
          let mv := digitsToNat ms.data
          if hv ≤ 23 ∧ mv ≤ 59 then .ok (some ⟨hv, mv⟩)
          else .error (.valueError ("time data " ++ t ++ " does not match format %H:%M"))
        else .error (.valueError ("time data " ++ t ++ " does not match format %H:%M"))
      | _ => .error (.valueError ("time data " ++ t ++ " does not match format %H:%M"))

/-- Left-pad with zeros to the given width. -/
def padZeros (w : Nat) (s : String) : String :=
  (List.replicate (w - s.data.length) '0').asString ++ s

/-- `entry_date.strftime("%Y-%m")`: the derived month key. -/
def format_month (d : PyDate) : String :=
  padZeros 4 (natToString d.year) ++ "-" ++ padZeros 2 (natToString d.month)

/-- `extract_project_id` (csv_parser.py lines 43-54): last `" - "`-separated
segment, trimmed (`split` never returns an empty list, so the `else` branch
of the Python conditional expression is unreachable). -/
def extract_project_id (project_name : String) : String :=
  let parts := py_split project_name " - "
  match parts.getLast? with
  | some last => py_strip last
  | none => py_strip project_name

/-- The readable project name built in `_parse_row` (csv_parser.py lines
128-129): everything except the ID suffix, rejoined with `" - "` and
stripped; the whole field when there is a single segment. -/
def derive_project_name (project_full : String) : String :=
  let name_parts := py_split project_full " - "
  if 1 < name_parts.length then py_strip (joinSepList " - " name_parts.dropLast)
  else project_full

/-! ### DictReader row model -/

/-- A `csv.DictReader` row: header names zipped with the record\x27s values,
missing trailing values filled with the `restval` default `None`.  Lookup
follows `dict` semantics (for a duplicated header name the later column
wins), so `rowGet` searches from the right. -/
abbrev CsvRow := List (String × PyStr)

/-- `dict(zip(fieldnames, vals))` padded with `restval = None`. -/
def buildRow : List String → List String → CsvRow
  | [], _ => []
  | f :: fs, [] => (f, none) :: buildRow fs []
  | f :: fs, v :: vs => (f, some v) :: buildRow fs vs

/-- The value stored under `key`, if the key is present at all. -/
def rowLookup (row : CsvRow) (key : String) : Option PyStr :=
  (row.reverse.find? fun p => p.1 == key).map Prod.snd

/-- Python `row.get(key, dflt)`: the default only applies when the key is
absent; a present key whose stored value is `None` yields `None`. -/
def rowGet (row : CsvRow) (key : String) (dflt : String) : PyStr :=
  match rowLookup row key with
  | none => some dflt
  | some v => v

/-- What one data row contributes: either a parsed entry or exactly one
recorded error message (in Python, `_parse_row` appends the message to the
shared error list and returns `None`). -/
inductive RowOutcome where
  | entry (e : ParsedTimeEntry)
  | rowError (msg : String)
deriving DecidableEq, Repr

deriving instance DecidableEq for Except

/-- `_parse_row` (csv_parser.py lines 102-145), with the field evaluation
order of the source: Project, Duration (decimal), Start Date, project id and
name, Start Time, End Time, then the remaining text fields inside the
`ParsedTimeEntry` constructor call. -/
def _parse_row (row : CsvRow) (row_num : Nat) : Except PyExc RowOutcome :=
  match py_strip_opt (rowGet row "Project" "") with
  | .error exc => .error exc
  | .ok project_full =>
    if project_full = "" then
      .ok (.rowError ("Row " ++ natToString row_num ++ ": missing Project column"))
    else
      match py_strip_opt (rowGet row "Duration (decimal)" "0") with
      | .error exc => .error exc
      | .ok duration_str =>
        match pyFloat duration_str with
        | none =>
          .ok (.rowError
            ("Row " ++ natToString row_num ++ ": invalid duration \x27" ++ duration_str ++ "\x27"))
        | some duration =>
          match py_strip_opt (rowGet row "Start Date" "") with
          | .error exc => .error exc
          | .ok date_str =>
            if date_str = "" then
              .ok (.rowError ("Row " ++ natToString row_num ++ ": missing Start Date"))
            else
              match _parse_date date_str with
              | .error exc => .error exc
              | .ok entry_date =>
                match _parse_time (rowGet row "Start Time" "") with
                | .error exc => .error exc
                | .ok start_t =>
                  match _parse_time (rowGet row "End Time" "") with
                  | .error exc => .error exc
                  | .ok end_t =>
                    match py_strip_opt (rowGet row "Client" "") with
                    | .error exc => .error exc
                    | .ok client =>
                      match py_strip_opt (rowGet row "User" "") with
                      | .error exc => .error exc
                      | .ok employee =>
                        match py_strip_opt (rowGet row "Description" "") with
                        | .error exc => .error exc
                        | .ok description =>
                          .ok (.entry {
                            project_id := extract_project_id project_full
                            project_name := derive_project_name project_full
                            client := client
                            employee := employee
                            description := description
                            date := entry_date
                            start_time := start_t
                            end_time := end_t
                            duration_decimal := duration
                            month := format_month entry_date })

/-! ### csv.reader record model -/

/-- Split one physical line into cell values, with the quoting rules of the
default `csv` dialect: a double quote opens a quoted cell only at the start
of the cell, `""` inside a quoted cell is a literal quote.  Quoted line
breaks never occur in Clockify exports and are not modelled.  The first
argument is the in-quotes flag, the second the current cell (reversed), the
third the finished cells (reversed). -/
def splitFieldsAux : Bool → List Char → List (List Char) → List Char → List (List Char)
  | _, cur, acc, [] => (cur.reverse :: acc).reverse
  | true, cur, acc, '"' :: '"' :: rest => splitFieldsAux true ('"' :: cur) acc rest
  | true, cur, acc, '"' :: rest => splitFieldsAux false cur acc rest
  | true, cur, acc, c :: rest => splitFieldsAux true (c :: cur) acc rest
  | false, cur, acc, ',' :: rest => splitFieldsAux false [] (cur.reverse :: acc) rest
  | false, cur, acc, '"' :: rest =>
    if cur = [] then splitFieldsAux true cur acc rest
    else splitFieldsAux false ('"' :: cur) acc rest
  | false, cur, acc, c :: rest => splitFieldsAux false (c :: cur) acc rest

/-- One record of `csv.reader`: an empty line is the empty record. -/
def csvCells (line : String) : List String :=
  if line = "" then []
  else (splitFieldsAux false [] [] line.data).map List.asString

/-- Drop one trailing carriage return, as the reader treats `\r\n` (and a
bare `\r` before end of line) as a record terminator. -/
def stripCR (l : String) : String :=
  match l.data.getLast? with
  | some c => if c = '\r' then l.data.dropLast.asString else l
  | none => l

/-- The records `csv.reader(io.StringIO(content))` yields: physical lines,
minus the phantom empty line a trailing newline would create. -/
def csvRecords (content : String) : List (List String) :=
  let lines := (py_split content "\n").map stripCR
  let lines :=
    match lines.getLast? with
    | some l => if l = "" then lines.dropLast else lines
    | none => lines
  lines.map csvCells

/-! ### parse_csv -/

/-- The mutable state threaded through the row loop of `parse_csv`:
the accumulated entries, the `seen_projects` dict (insertion-ordered, keyed
by project id) and the error list. -/
structure ParseState where
  entries : List ParsedTimeEntry
  seen : List (String × ParsedProject)
  errors : List String
deriving DecidableEq, Repr

/-- One iteration of the `for row_num, row in enumerate(reader, start=2)`
loop (csv_parser.py lines 83-96): build the `DictReader` dict, run
`_parse_row`, and either record the entry (discovering its project on first
sight) or append the error message; a raised exception is caught and
recorded as an unexpected error. -/
def parseStep (fieldnames : List String) (row_num : Nat) (vals : List String)
    (st : ParseState) : ParseState :=
  match _parse_row (buildRow fieldnames vals) row_num with
  | .error exc =>
    { st with errors :=
        st.errors ++ ["Row " ++ natToString row_num ++ ": unexpected error: " ++ exc.message] }
  | .ok (.rowError msg) => { st with errors := st.errors ++ [msg] }
  | .ok (.entry e) =>
    let st1 := { st with entries := st.entries ++ [e] }
    if (st1.seen.find? fun p => p.1 == e.project_id).isSome then st1
    else
      { st1 with seen := st1.seen ++
          [(e.project_id,
            { project_id := e.project_id, name := e.project_name, client := e.client })] }

/-- The row loop itself, numbering yielded rows from 2. -/
def parseRows (fieldnames : List String) : Nat → List (List String) → ParseState → ParseState
  | _, [], st => st
  | row_num, vals :: rest, st =>
    parseRows fieldnames (row_num + 1) rest (parseStep fieldnames row_num vals st)

/-- `parse_csv` (csv_parser.py lines 70-99).  The first record is the header
(`DictReader.fieldnames`); blank records are skipped without consuming a row
number, as `DictReader.__next__` discards empty rows. -/
def parse_csv (content : String) : ParseResult :=
  match csvRecords content with
  | [] => { entries := [], projects := [], errors := [] }
  | fieldnames :: rest =>
    let rows := rest.filter fun r => !r.isEmpty
    let st := parseRows fieldnames 2 rows { entries := [], seen := [], errors := [] }
    { entries := st.entries, projects := st.seen.map Prod.snd, errors := st.errors }

/-- The header record of the CSV text, if any. -/
def fieldnamesOf (content : String) : List String :=
  match csvRecords content with
  | [] => []
  | f :: _ => f

/-- The non-blank data records following the header. -/
def dataRowsOf (content : String) : List (List String) :=
  match csvRecords content with
  | [] => []
  | _ :: rest => rest.filter fun r => !r.isEmpty

/-- Strip a single leading byte-order mark: the effect of the
`.decode("utf-8-sig")` in `imports.upload_csv` (imports.py line 28) on a
BOM-prefixed file. -/
def strip_bom (s : String) : String :=
  match s.data with
  | c :: rest => if c = '\uFEFF' then rest.asString else s
  | [] => s

/-- The parse operation as the import boundary exposes it: decode with
`utf-8-sig` (which swallows one leading BOM), then `parse_csv`. -/
def parse_upload_text (content : String) : ParseResult :=
  parse_csv (strip_bom content)

/-! ### Import endpoint model (`app/routers/imports.py`)

The database is modelled as an explicit store of projects and time entries;
`db.add` is an append.  The session autoflushes before each query (SQLAlchemy
default), so the duplicate-check `SELECT` of `_is_duplicate` sees the rows
added earlier in the same batch.
-/

/-- A persisted `Project` row, with the fields the import path touches. -/
structure DbProject where
  id : Nat
  project_id : String
  name : String
  client : String
  bonus_rate : ℚ
deriving DecidableEq, Repr

/-- A persisted `TimeEntry` row (models.py lines 72-91): the parsed entry
projected onto the stored columns, `date` reduced to its calendar date. -/
structure StoredEntry where
  project_id : Nat
  date : PyDate
  duration_decimal : ℚ
  employee : String
  description : String
  start_time : Option PyTime
  end_time : Option PyTime
  month : String
  import_batch_id : Nat
deriving DecidableEq, Repr

/-- The store: persisted projects and time entries plus the id counters the
database would assign. -/
structure Store where
  projects : List DbProject
  entries : List StoredEntry
  next_project_pk : Nat
  next_batch_id : Nat
deriving DecidableEq, Repr

def emptyStore : Store :=
  { projects := [], entries := [], next_project_pk := 1, next_batch_id := 1 }

/-- The response model `ImportResult` (schemas), as filled by `upload_csv`. -/
structure ImportResult where
  batch_id : Nat
  rows_imported : Nat
  projects_created : Nat
  projects_updated : Nat
deriving DecidableEq, Repr

/-- The duplicate criterion of `_is_duplicate` (imports.py lines 117-137):
same project, employee, date and duration. -/
def entryKey (e : StoredEntry) : Nat × String × PyDate × ℚ :=
  (e.project_id, e.employee, e.date, e.duration_decimal)

/-- `_is_duplicate`: does a stored entry with this exact
(project, employee, date, duration) combination exist? -/
def _is_duplicate (entries : List StoredEntry) (project_pk : Nat) (employee : String)
    (d : PyDate) (duration : ℚ) : Bool :=
  entries.any fun e =>
    decide (e.project_id = project_pk ∧ e.employee = employee ∧
      e.date = d ∧ e.duration_decimal = duration)

/-- One iteration of the `_ensure_projects` loop (imports.py lines 95-106):
skip a discovered project whose Clockify `project_id` already exists,
otherwise insert it with the default bonus rate `0.02` and count it. -/
def _ensure_projects_step (acc : Store × Nat) (p : ParsedProject) : Store × Nat :=
  if ((acc.1).projects.find? fun q => q.project_id == p.project_id).isSome then acc
  else
    ({ acc.1 with
        projects := (acc.1).projects ++
          [{ id := (acc.1).next_project_pk, project_id := p.project_id,
             name := p.name, client := p.client, bonus_rate := mkRat 2 100 }],
        next_project_pk := (acc.1).next_project_pk + 1 },
      acc.2 + 1)

/-- `_ensure_projects` (imports.py lines 92-108): create the discovered
projects that do not exist yet (by Clockify `project_id`), with the default
bonus rate `0.02`; return the new store and the created count. -/
def _ensure_projects (projects : List ParsedProject) (st : Store) : Store × Nat :=
  projects.foldl _ensure_projects_step (st, 0)

/-- `_build_project_map` (imports.py lines 111-114): Clockify `project_id`
to database primary key, with `dict` semantics (a later row wins). -/
def _build_project_map (st : Store) : List (String × Nat) :=
  st.projects.map fun p => (p.project_id, p.id)

/-- Lookup in the project map (`project_map.get`). -/
def mapGet (m : List (String × Nat)) (key : String) : Option Nat :=
  (m.reverse.find? fun p => p.1 == key).map Prod.snd

/-- The stored row `upload_csv` builds from a parsed entry. -/
def toStored (db_project_pk : Nat) (batch_id : Nat) (e : ParsedTimeEntry) : StoredEntry :=
  { project_id := db_project_pk, date := e.date, duration_decimal := e.duration_decimal,
    employee := e.employee, description := e.description, start_time := e.start_time,
    end_time := e.end_time, month := e.month, import_batch_id := batch_id }

/-- The entry loop of `upload_csv` (imports.py lines 44-72): skip entries
whose project is unknown, skip duplicates, append the rest; the appended
rows are visible to later duplicate checks of the same batch (autoflush). -/
def importLoop (pmap : List (String × Nat)) (batch_id : Nat) :
    List ParsedTimeEntry → List StoredEntry → Nat → List StoredEntry × Nat
  | [], stored, imported => (stored, imported)
  | e :: rest, stored, imported =>
    match mapGet pmap e.project_id with
    | none => importLoop pmap batch_id rest stored imported
    | some db_pk =>
      if _is_duplicate stored db_pk e.employee e.date e.duration_decimal then
        importLoop pmap batch_id rest stored imported
      else
        importLoop pmap batch_id rest (stored ++ [toStored db_pk batch_id e]) (imported + 1)

/-- `upload_csv` (imports.py lines 15-82), state-passing form: parse, reject
a file with no valid entries (HTTP 400), create missing projects, then run
the import loop inside one batch.  The `.csv` filename check is part of the
HTTP layer and not modelled. -/
def upload_csv (content : String) (st : Store) : Except String (Store × ImportResult) :=
  let result := parse_csv content
  if result.entries.isEmpty then .error "No valid entries found"
  else
    let ensured := _ensure_projects result.projects st
    let st1 := ensured.1
    let pmap := _build_project_map st1
    let batch_id := st1.next_batch_id
    let looped := importLoop pmap batch_id result.entries st1.entries 0
    .ok
      ({ st1 with entries := looped.1, next_batch_id := batch_id + 1 },
       { batch_id := batch_id, rows_imported := looped.2,
         projects_created := ensured.2, projects_updated := 0 })

/-- A sequence of uploads: a failed upload rolls the transaction back and
leaves the store unchanged. -/
def applyImports (contents : List String) (st : Store) : Store :=
  contents.foldl
    (fun s c =>
      match upload_csv c s with
      | .ok r => r.1
      | .error _ => s)
    st

/-! ### Derived notions used in the statements -/

/-- The duplicate-relevant key of a parsed entry, before the project id is
translated to a database primary key. -/
def parsedKey (e : ParsedTimeEntry) : String × String × PyDate × ℚ :=
  (e.project_id, e.employee, e.date, e.duration_decimal)

/-- No two stored time entries agree on (project, employee, date, duration). -/
def EntriesWF (l : List StoredEntry) : Prop :=
  l.Pairwise fun a b => entryKey a ≠ entryKey b

/-- Projects of a store are well-formed: primary keys below the counter, and
both the Clockify ids and the primary keys are duplicate-free. -/
def ProjectsWF (st : Store) : Prop :=
  (∀ p ∈ st.projects, p.id < st.next_project_pk) ∧
  (st.projects.map DbProject.project_id).Nodup ∧
  (st.projects.map DbProject.id).Nodup

/-- Loop invariant of `parse_csv`: every accumulated entry has its project
in the `seen_projects` dict, and each dict value carries its own key as
`project_id`. -/
def SeenWF (st : ParseState) : Prop :=
  (∀ e ∈ st.entries, ∃ p ∈ st.seen, (p : String × ParsedProject).1 = e.project_id) ∧
  (∀ p ∈ st.seen, (p : String × ParsedProject).2.project_id = p.1)

/-- The duration cell of this data row, read the way `_parse_row` reads it,
either fails to parse or denotes a non-negative number. -/
def durationFieldNonneg (fieldnames vals : List String) : Bool :=
  match py_strip_opt (rowGet (buildRow fieldnames vals) "Duration (decimal)" "0") with
  | .ok s =>
    match pyFloat s with
    | some v => decide (0 ≤ v)
    | none => true
  | .error _ => true

end BonusTracker

namespace BonusTracker

/-! ### Claims C1-C3: the bonus calculator -/

/-- C1: `computeBonus` equals the rounded two-tier formula
`round(remote_hours * rate * bonus_rate + onsite_hours * onsite_rate *
bonus_rate, 2)`, and on the spec\x27s two examples it returns `21.00`
(dedicated onsite rate `150`) and `19.20` (onsite inherits the remote
rate). -/
theorem calculate_bonus_formula_and_examples :
    (∀ (remote_hours onsite_hours : ℚ) (hourly_rate onsite_hourly_rate : Option ℚ)
      (bonus_rate : ℚ),
      calculate_bonus remote_hours onsite_hours hourly_rate onsite_hourly_rate bonus_rate =
        round2 (remote_hours * pyOrFloat hourly_rate 0 * bonus_rate +
          onsite_hours * pyOrFloat onsite_hourly_rate (pyOrFloat hourly_rate 0) * bonus_rate)) ∧
    calculate_bonus 5 3 (some 120) (some 150) (2/100) = 21 ∧
    calculate_bonus 5 3 (some 120) none (2/100) = 96/5 := by
  refine ⟨fun _ _ _ _ _ => rfl, ?_, ?_⟩ <;> with_unfolding_all decide

/-- C2 counterexample: the claim says the onsite rate equals
`onsite_hourly_rate` for any present value, including `0.0`.  The code uses
Python `or`, which treats `0.0` as falsy: with `onsite_hourly_rate = 0.0`,
one onsite hour at remote rate `100` and bonus rate `1`, the code returns
`100`, while the claimed formula (onsite rate `0`) yields `0`. -/
theorem calculate_bonus_onsite_zero_cx :
    calculate_bonus 0 1 (some 100) (some 0) 1 = 100 ∧
    round2 (0 * pyOrFloat (some 100) 0 * 1 + 1 * (0 : ℚ) * 1) = 0 := by
  constructor <;> with_unfolding_all decide

/-- C2 amended: the onsite rate equals `onsite_hourly_rate` whenever it is
present and non-zero; it falls back to `hourly_rate` when
`onsite_hourly_rate` is unset or equal to `0.0`. -/
theorem calculate_bonus_onsite_rate_amended
    (remote_hours onsite_hours : ℚ) (hourly_rate : Option ℚ) (bonus_rate : ℚ) :
    (∀ v : ℚ, v ≠ 0 →
      calculate_bonus remote_hours onsite_hours hourly_rate (some v) bonus_rate =
        round2 (remote_hours * pyOrFloat hourly_rate 0 * bonus_rate +
          onsite_hours * v * bonus_rate)) ∧
    calculate_bonus remote_hours onsite_hours hourly_rate none bonus_rate =
      round2 (remote_hours * pyOrFloat hourly_rate 0 * bonus_rate +
        onsite_hours * pyOrFloat hourly_rate 0 * bonus_rate) ∧
    calculate_bonus remote_hours onsite_hours hourly_rate (some 0) bonus_rate =
      round2 (remote_hours * pyOrFloat hourly_rate 0 * bonus_rate +
        onsite_hours * pyOrFloat hourly_rate 0 * bonus_rate) := by
  refine ⟨fun v hv => ?_, rfl, ?_⟩
  · simp only [calculate_bonus, pyOrFloat, if_neg hv]
  · simp [calculate_bonus, pyOrFloat]

/-- Witness for the amended C2 theorem at the spec\x27s example input. -/
theorem calculate_bonus_onsite_rate_amended_witness :
    calculate_bonus 5 3 (some 120) (some 150) (2/100) =
      round2 (5 * pyOrFloat (some 120) 0 * (2/100) + 3 * 150 * (2/100)) :=
  (calculate_bonus_onsite_rate_amended 5 3 (some 120) (2/100)).1 150 (by norm_num)

/-- C3 counterexample: the claim says an absent `hourly_rate` always yields
`0.0`.  With `hourly_rate = None` but a dedicated onsite rate of `150`,
three onsite hours at bonus rate `0.02` earn `9.0`, not `0.0`. -/
theorem calculate_bonus_none_rate_cx :
    calculate_bonus 0 3 none (some 150) (2/100) = 9 ∧ (9 : ℚ) ≠ 0 := by
  constructor <;> with_unfolding_all decide

/-- C3 amended: `computeBonus` never raises (it is a total function), and the
result is `0.0` whenever both hour arguments are zero, or the bonus rate is
zero, or both `hourly_rate` and `onsite_hourly_rate` are absent. -/
theorem calculate_bonus_zero_cases_amended
    (remote_hours onsite_hours : ℚ) (hourly_rate onsite_hourly_rate : Option ℚ)
    (bonus_rate : ℚ)
    (h : (remote_hours = 0 ∧ onsite_hours = 0) ∨ bonus_rate = 0 ∨
      (hourly_rate = none ∧ onsite_hourly_rate = none)) :
    calculate_bonus remote_hours onsite_hours hourly_rate onsite_hourly_rate bonus_rate = 0 := by
  have h0 : round2 0 = 0 := by with_unfolding_all decide
  rcases h with ⟨h1, h2⟩ | h1 | ⟨h1, h2⟩ <;> subst h1 <;> try subst h2
  · simpa [calculate_bonus] using h0
  · simpa [calculate_bonus] using h0
  · simpa [calculate_bonus, pyOrFloat] using h0

/-- Witness for the amended C3 theorem: zero hours yield a zero bonus. -/
theorem calculate_bonus_zero_cases_amended_witness :
    calculate_bonus 0 0 (some 150) none (2/100) = 0 :=
  calculate_bonus_zero_cases_amended 0 0 (some 150) none (2/100) (Or.inl ⟨rfl, rfl⟩)

end BonusTracker

namespace BonusTracker

/-! ### Claim C7: project id and name derivation -/

/-- C7 counterexample: the claim states the derived `project_name` is the
non-final segments rejoined with `" - "`, but the code additionally strips
the rejoined string.  On the field `"A  - B"` (two spaces before the dash)
the rejoin is `"A "`, while the code produces `"A"`. -/
theorem derive_project_name_trim_cx :
    derive_project_name "A  - B" = "A" ∧
    joinSepList " - " ((py_split "A  - B" " - ").dropLast) = "A " ∧
    ("A" : String) ≠ "A " := by
  refine ⟨by decide, by decide, by decide⟩

/-- C7 amended: `project_id` is the last `" - "`-separated segment of the
`Project` field, trimmed (the whole field, trimmed, when no separator
exists), and `project_name` is all segments except the last rejoined with
`" - "` and then trimmed (the whole field when there is only one segment).
In particular the two quoted examples hold. -/
theorem extract_project_id_and_name_amended :
    extract_project_id "Thees - Azure Migration Advisory & Implement - 430980254956" =
      "430980254956" ∧
    extract_project_id "JustAnId" = "JustAnId" ∧
    (∀ s : String,
      extract_project_id s =
        match (py_split s " - ").getLast? with
        | some last => py_strip last
        | none => py_strip s) ∧
    (∀ s : String,
      derive_project_name s =
        if 1 < (py_split s " - ").length then
          py_strip (joinSepList " - " ((py_split s " - ").dropLast))
        else s) :=
  ⟨by decide, by decide, fun _ => rfl, fun _ => rfl⟩

/-! ### Claim C8: BOM-agnostic parsing -/

/-- C8: the parse operation at the import boundary (decode with `utf-8-sig`,
then `parse_csv`) is BOM-agnostic: prefixing the file with a byte-order mark
does not change the `ParseResult`.  The file content itself is assumed not
to begin with a BOM of its own (`utf-8-sig` swallows only one). -/
theorem parse_upload_bom_agnostic (t : String)
    (h : t.data.head? ≠ some '﻿') :
    parse_upload_text (String.mk ['﻿'] ++ t) = parse_upload_text t := by
  have h1 : strip_bom (String.mk ['﻿'] ++ t) = t := rfl
  have h2 : strip_bom t = t := by
    obtain ⟨data⟩ := t
    cases data with
    | nil => rfl
    | cons c cs =>
      have hc : c ≠ '﻿' := by
        intro hceq
        exact h (by simp [hceq, String.data])
      simp [strip_bom, hc]
  unfold parse_upload_text
  rw [h1, h2]

/-- Witness for C8 on a concrete two-row file. -/
theorem parse_upload_bom_agnostic_witness :
    parse_upload_text
        (String.mk ['﻿'] ++ "Project,Start Date,Duration (decimal)\nA - 7,05/01/2024,2") =
      parse_upload_text "Project,Start Date,Duration (decimal)\nA - 7,05/01/2024,2" :=
  parse_upload_bom_agnostic "Project,Start Date,Duration (decimal)\nA - 7,05/01/2024,2"
    (by decide)

end BonusTracker

namespace BonusTracker

/-! ### Claim C4: the catch-all around row construction -/

/-- C4: whenever building a row\x27s entry raises, the loop body of
`parse_csv` catches the exception, records exactly
`"Row N: unexpected error: <message>"`, changes nothing else, and the fold
continues with the next row.  `parse_csv` is a total function, so no
exception propagates out of it. -/
theorem parse_catches_unexpected_row_errors :
    ∀ (fieldnames vals : List String) (row_num : Nat) (st : ParseState) (exc : PyExc),
      _parse_row (buildRow fieldnames vals) row_num = .error exc →
      parseStep fieldnames row_num vals st =
        { st with errors := st.errors ++
            ["Row " ++ natToString row_num ++ ": unexpected error: " ++ exc.message] } ∧
      ∀ rest, parseRows fieldnames row_num (vals :: rest) st =
        parseRows fieldnames (row_num + 1) rest
          { st with errors := st.errors ++
              ["Row " ++ natToString row_num ++ ": unexpected error: " ++ exc.message] } := by
  intro fieldnames vals row_num st exc h
  have h1 : parseStep fieldnames row_num vals st =
      { st with errors := st.errors ++
          ["Row " ++ natToString row_num ++ ": unexpected error: " ++ exc.message] } := by
    unfold parseStep
    rw [h]
  exact ⟨h1, fun rest => by simp only [parseRows, h1]⟩

/-- Witness for C4: a malformed `Start Date` raises `ValueError` inside
`strptime`; the loop records it as an unexpected error. -/
theorem parse_catches_unexpected_row_errors_witness :
    parseStep ["Project", "Start Date", "Duration (decimal)"] 2 ["A - 7", "banana", "2"]
        { entries := [], seen := [], errors := [] } =
      { entries := [], seen := [],
        errors := ["Row 2: unexpected error: time data banana does not match format %d/%m/%Y"] } :=
  (parse_catches_unexpected_row_errors ["Project", "Start Date", "Duration (decimal)"]
    ["A - 7", "banana", "2"] 2 { entries := [], seen := [], errors := [] }
    (.valueError "time data banana does not match format %d/%m/%Y") (by decide)).1

/-! ### Claim C10: a missing duration column defaults to "0" -/

theorem buildRow_keys (fs : List String) :
    ∀ vs : List String, (buildRow fs vs).map Prod.fst = fs := by
  induction fs with
  | nil => intro vs; rfl
  | cons f fs ih =>
    intro vs
    cases vs with
    | nil => simpa [buildRow] using ih []
    | cons v vs => simpa [buildRow] using ih vs

theorem rowLookup_eq_none_of_not_mem (fs vs : List String) (key : String)
    (h : key ∉ fs) : rowLookup (buildRow fs vs) key = none := by
  have hall : ∀ p ∈ (buildRow fs vs).reverse, ¬ ((p : String × PyStr).1 == key) = true := by
    intro p hp hbeq
    have hmem : p.1 ∈ fs := by
      have h1 : p ∈ buildRow fs vs := List.mem_reverse.mp hp
      have h2 := List.mem_map_of_mem Prod.fst h1
      rwa [buildRow_keys] at h2
    rw [eq_of_beq hbeq] at hmem
    exact h hmem
  simp [rowLookup, List.find?_eq_none.mpr hall]

/-- C10: when the `"Duration (decimal)"` column is absent from the header,
`row.get` substitutes the default `"0"`, so a row that parses successfully
gets `duration_decimal = 0.0`, and no invalid-duration error can be recorded
for the row: the only recordable row errors are the missing-Project and
missing-Start-Date messages. -/
theorem missing_duration_column_defaults_to_zero
    (fieldnames vals : List String) (row_num : Nat)
    (h : "Duration (decimal)" ∉ fieldnames) :
    (∀ e, _parse_row (buildRow fieldnames vals) row_num = .ok (.entry e) →
      e.duration_decimal = 0) ∧
    (∀ m, _parse_row (buildRow fieldnames vals) row_num = .ok (.rowError m) →
      m = "Row " ++ natToString row_num ++ ": missing Project column" ∨
      m = "Row " ++ natToString row_num ++ ": missing Start Date") := by
  have hlk := rowLookup_eq_none_of_not_mem fieldnames vals _ h
  have hget : rowGet (buildRow fieldnames vals) "Duration (decimal)" "0" = some "0" := by
    simp [rowGet, hlk]
  have hdur : py_strip_opt (rowGet (buildRow fieldnames vals) "Duration (decimal)" "0") =
      .ok "0" := by
    rw [hget]; rfl
  have hzero : pyFloat "0" = some 0 := by with_unfolding_all decide
  constructor
  · intro e he
    unfold _parse_row at he
    rw [hdur] at he
    simp only [hzero] at he
    repeat' split at he
    all_goals try exact Except.noConfusion he
    all_goals injection he with he1
    all_goals try exact RowOutcome.noConfusion he1
    all_goals injection he1 with he2
    all_goals rw [← he2]
  · intro m hm
    unfold _parse_row at hm
    rw [hdur] at hm
    simp only [hzero] at hm
    repeat' split at hm
    all_goals try exact Except.noConfusion hm
    all_goals injection hm with hm1
    all_goals try exact RowOutcome.noConfusion hm1
    all_goals injection hm1 with hm2
    all_goals first
      | exact Or.inl hm2.symm
      | exact Or.inr hm2.symm

/-- Witness for C10 on a header without the duration column: the parsed
entry carries duration zero. -/
theorem missing_duration_column_defaults_to_zero_witness :
    ({ project_id := "7", project_name := "A", client := "", employee := "",
       description := "", date := { year := 2024, month := 1, day := 5 },
       start_time := none, end_time := none, duration_decimal := 0,
       month := "2024-01" } : ParsedTimeEntry).duration_decimal = 0 :=
  (missing_duration_column_defaults_to_zero ["Project", "Start Date"]
    ["A - 7", "05/01/2024"] 2 (by decide)).1 _ (by with_unfolding_all decide)

end BonusTracker

namespace BonusTracker

/-! ### Helper lemmas on the parse loop -/

theorem parseStep_count (fieldnames : List String) (row_num : Nat) (vals : List String)
    (st : ParseState) :
    (parseStep fieldnames row_num vals st).entries.length +
        (parseStep fieldnames row_num vals st).errors.length =
      st.entries.length + st.errors.length + 1 := by
  unfold parseStep
  split
  · simp only [List.length_append, List.length_singleton]
    omega
  · simp only [List.length_append, List.length_singleton]
    omega
  · dsimp only
    split <;>
      · simp only [List.length_append, List.length_singleton]
        omega

theorem parseStep_entries_sub (fieldnames : List String) (row_num : Nat)
    (vals : List String) (st : ParseState) :
    ∀ e ∈ (parseStep fieldnames row_num vals st).entries,
      e ∈ st.entries ∨ _parse_row (buildRow fieldnames vals) row_num = .ok (.entry e) := by
  intro e he
  unfold parseStep at he
  split at he
  · exact Or.inl he
  · exact Or.inl he
  · rename_i e' heq
    dsimp only at he
    split at he <;>
    · simp only [List.mem_append, List.mem_singleton] at he
      rcases he with he | he
      · exact Or.inl he
      · exact Or.inr (he ▸ heq)

theorem parseStep_seenWF (fieldnames : List String) (row_num : Nat) (vals : List String)
    (st : ParseState) (h : SeenWF st) : SeenWF (parseStep fieldnames row_num vals st) := by
  obtain ⟨h1, h2⟩ := h
  unfold parseStep
  split
  · exact ⟨h1, h2⟩
  · exact ⟨h1, h2⟩
  · rename_i e heq
    dsimp only
    split
    · rename_i hfound
      refine ⟨?_, h2⟩
      intro x hx
      simp only [List.mem_append, List.mem_singleton] at hx
      rcases hx with hx | hx
      · exact h1 x hx
      · subst hx
        rw [Option.isSome_iff_exists] at hfound
        obtain ⟨p, hp⟩ := hfound
        have hpred := List.find?_some hp
        exact ⟨p, List.mem_of_find?_eq_some hp, eq_of_beq hpred⟩
    · refine ⟨?_, ?_⟩
      · intro x hx
        simp only [List.mem_append, List.mem_singleton] at hx
        rcases hx with hx | hx
        · obtain ⟨p, hp, hpe⟩ := h1 x hx
          exact ⟨p, List.mem_append_left _ hp, hpe⟩
        · subst hx
          refine ⟨_, List.mem_append_right _ (List.mem_singleton.mpr rfl), rfl⟩
      · intro p hp
        simp only [List.mem_append, List.mem_singleton] at hp
        rcases hp with hp | hp
        · exact h2 p hp
        · subst hp
          rfl

theorem parseRows_count (fieldnames : List String) :
    ∀ (rows : List (List String)) (row_num : Nat) (st : ParseState),
      (parseRows fieldnames row_num rows st).entries.length +
          (parseRows fieldnames row_num rows st).errors.length =
        st.entries.length + st.errors.length + rows.length := by
  intro rows
  induction rows with
  | nil => intro row_num st; simp [parseRows]
  | cons v rest ih =>
    intro row_num st
    simp only [parseRows, List.length_cons]
    rw [ih]
    rw [parseStep_count]
    omega

theorem parseRows_seenWF (fieldnames : List String) :
    ∀ (rows : List (List String)) (row_num : Nat) (st : ParseState),
      SeenWF st → SeenWF (parseRows fieldnames row_num rows st) := by
  intro rows
  induction rows with
  | nil => intro row_num st h; exact h
  | cons v rest ih =>
    intro row_num st h
    exact ih _ _ (parseStep_seenWF fieldnames row_num v st h)

theorem parseRows_entries_pred (fieldnames : List String) (P : ParsedTimeEntry → Prop) :
    ∀ (rows : List (List String)) (row_num : Nat) (st : ParseState),
      (∀ v ∈ rows, ∀ (m : Nat) (e : ParsedTimeEntry),
        _parse_row (buildRow fieldnames v) m = .ok (.entry e) → P e) →
      (∀ e ∈ st.entries, P e) →
      ∀ e ∈ (parseRows fieldnames row_num rows st).entries, P e := by
  intro rows
  induction rows with
  | nil => intro row_num st _ hst e he; exact hst e he
  | cons v rest ih =>
    intro row_num st hrows hst e he
    refine ih _ _ (fun w hw => hrows w (List.mem_cons_of_mem _ hw)) ?_ e he
    intro x hx
    rcases parseStep_entries_sub fieldnames row_num v st x hx with hmem | hrow
    · exact hst x hmem
    · exact hrows v (List.mem_cons_self _ _) row_num x hrow

/-- Every parsed entry\x27s project id appears among the discovered projects
(shared between the C5 and C6 arguments). -/
theorem parse_csv_entries_project_mem (content : String) :
    ∀ e ∈ (parse_csv content).entries,
      ∃ p ∈ (parse_csv content).projects, p.project_id = e.project_id := by
  unfold parse_csv
  cases csvRecords content with
  | nil => intro e he; exact absurd he (by simp)
  | cons fieldnames rest =>
    intro e he
    simp only at he ⊢
    have hwf : SeenWF (parseRows fieldnames 2 (rest.filter fun r => !r.isEmpty)
        { entries := [], seen := [], errors := [] }) := by
      refine parseRows_seenWF fieldnames _ 2 _ ⟨?_, ?_⟩ <;> intro x hx <;> exact absurd hx (by simp)
    obtain ⟨h1, h2⟩ := hwf
    obtain ⟨p, hp, hpe⟩ := h1 e he
    exact ⟨p.2, List.mem_map_of_mem Prod.snd hp, by rw [h2 p hp, hpe]⟩

end BonusTracker

namespace BonusTracker

/-! ### Claim C5: row accounting and project coverage -/

/-- C5: for every CSV text, the entries and error messages together never
outnumber the data rows (each row contributes exactly one of the two), and
each entry\x27s `project_id` appears among the discovered projects. -/
theorem parse_csv_row_accounting (content : String) :
    (parse_csv content).entries.length + (parse_csv content).errors.length ≤
      (dataRowsOf content).length ∧
    ∀ e ∈ (parse_csv content).entries,
      ∃ p ∈ (parse_csv content).projects, p.project_id = e.project_id := by
  refine ⟨?_, parse_csv_entries_project_mem content⟩
  unfold parse_csv dataRowsOf
  cases csvRecords content with
  | nil => simp
  | cons fieldnames rest =>
    simp only
    rw [parseRows_count]
    simp

/-- Witness for C5 on a concrete one-row file. -/
theorem parse_csv_row_accounting_witness :
    (parse_csv "Project,Start Date,Duration (decimal)\nA - 7,05/01/2024,2").entries.length +
        (parse_csv "Project,Start Date,Duration (decimal)\nA - 7,05/01/2024,2").errors.length ≤
      (dataRowsOf "Project,Start Date,Duration (decimal)\nA - 7,05/01/2024,2").length ∧
    ∃ p ∈ (parse_csv "Project,Start Date,Duration (decimal)\nA - 7,05/01/2024,2").projects,
      p.project_id =
        ({ project_id := "7", project_name := "A", client := "", employee := "",
           description := "", date := { year := 2024, month := 1, day := 5 },
           start_time := none, end_time := none, duration_decimal := mkRat 2 1,
           month := "2024-01" } : ParsedTimeEntry).project_id :=
  ⟨(parse_csv_row_accounting "Project,Start Date,Duration (decimal)\nA - 7,05/01/2024,2").1,
   (parse_csv_row_accounting "Project,Start Date,Duration (decimal)\nA - 7,05/01/2024,2").2
     _ (by with_unfolding_all decide)⟩

/-! ### Claim C9: entry durations -/

/-- C9 counterexample: nothing in the parser rejects a negative duration;
`float("-2")` parses and the entry is kept with `duration_decimal = -2`. -/
theorem parse_negative_duration_cx :
    ∃ e ∈ (parse_csv "Project,Start Date,Duration (decimal)\nA - 7,05/01/2024,-2").entries,
      e.duration_decimal < 0 := by
  with_unfolding_all decide

/-- The duration of a successfully parsed row is exactly the `float` of the
stripped duration cell. -/
theorem _parse_row_duration_from_field (row : CsvRow) (row_num : Nat) (e : ParsedTimeEntry)
    (h : _parse_row row row_num = .ok (.entry e)) :
    ∃ s, py_strip_opt (rowGet row "Duration (decimal)" "0") = .ok s ∧
      pyFloat s = some e.duration_decimal := by
  unfold _parse_row at h
  repeat' split at h
  all_goals try exact Except.noConfusion h
  all_goals injection h with h1
  all_goals try exact RowOutcome.noConfusion h1
  all_goals injection h1 with h2
  all_goals subst h2
  all_goals exact ⟨_, by assumption, by assumption⟩

/-- C9 amended: every parsed entry\x27s `duration_decimal` is non-negative
provided every data row\x27s duration cell (after the default and strip)
parses, if at all, to a non-negative number.  The parser itself never checks
the sign. -/
theorem parse_durations_nonneg_amended (content : String)
    (h : ∀ vals ∈ dataRowsOf content,
      durationFieldNonneg (fieldnamesOf content) vals = true) :
    ∀ e ∈ (parse_csv content).entries, 0 ≤ e.duration_decimal := by
  unfold dataRowsOf fieldnamesOf at h
  unfold parse_csv
  cases hrec : csvRecords content with
  | nil => intro e he; exact absurd he (by simp)
  | cons fieldnames rest =>
    rw [hrec] at h
    dsimp only at h
    simp only
    refine parseRows_entries_pred fieldnames _ _ 2 _ ?_ ?_
    · intro v hv m e hrow
      obtain ⟨s, hs, hfl⟩ := _parse_row_duration_from_field _ _ _ hrow
      have hb := h v hv
      unfold durationFieldNonneg at hb
      rw [hs] at hb
      dsimp only at hb
      rw [hfl] at hb
      dsimp only at hb
      exact of_decide_eq_true hb
    · intro e he
      exact absurd he (by simp)

/-- Witness for the amended C9 on a concrete file with duration `2`. -/
theorem parse_durations_nonneg_amended_witness :
    0 ≤ ({ project_id := "7", project_name := "A", client := "", employee := "",
           description := "", date := { year := 2024, month := 1, day := 5 },
           start_time := none, end_time := none, duration_decimal := mkRat 2 1,
           month := "2024-01" } : ParsedTimeEntry).duration_decimal :=
  parse_durations_nonneg_amended "Project,Start Date,Duration (decimal)\nA - 7,05/01/2024,2"
    (by with_unfolding_all decide) _ (by with_unfolding_all decide)

end BonusTracker

namespace BonusTracker

/-! ### Helper lemmas on the import model -/

theorem is_duplicate_false_iff (entries : List StoredEntry) (pk : Nat) (emp : String)
    (d : PyDate) (dur : ℚ) :
    _is_duplicate entries pk emp d dur = false ↔
      ∀ x ∈ entries,
        ¬(x.project_id = pk ∧ x.employee = emp ∧ x.date = d ∧ x.duration_decimal = dur) := by
  simp [_is_duplicate]

theorem is_duplicate_true_of_mem (entries : List StoredEntry) (x : StoredEntry)
    (hx : x ∈ entries) :
    _is_duplicate entries x.project_id x.employee x.date x.duration_decimal = true := by
  simp only [_is_duplicate, List.any_eq_true]
  exact ⟨x, hx, by simp⟩

theorem entriesWF_append_singleton (l : List StoredEntry) (x : StoredEntry)
    (h : EntriesWF l) (hx : ∀ y ∈ l, entryKey y ≠ entryKey x) : EntriesWF (l ++ [x]) := by
  unfold EntriesWF at h ⊢
  rw [List.pairwise_append]
  refine ⟨h, List.pairwise_singleton _ _, ?_⟩
  intro a ha b hb
  rw [List.mem_singleton] at hb
  subst hb
  exact hx a ha

theorem toStored_entryKey (pk b : Nat) (e : ParsedTimeEntry) :
    entryKey (toStored pk b e) = (pk, e.employee, e.date, e.duration_decimal) := rfl

theorem importLoop_entriesWF (pmap : List (String × Nat)) (b : Nat) :
    ∀ (es : List ParsedTimeEntry) (stored : List StoredEntry) (n : Nat),
      EntriesWF stored → EntriesWF (importLoop pmap b es stored n).1 := by
  intro es
  induction es with
  | nil => intro stored n h; exact h
  | cons e rest ih =>
    intro stored n h
    simp only [importLoop]
    cases hm : mapGet pmap e.project_id with
    | none => exact ih stored n h
    | some k =>
      dsimp only
      cases hdup : _is_duplicate stored k e.employee e.date e.duration_decimal with
      | true => simp only [if_true]; exact ih stored n h
      | false =>
        simp only [Bool.false_eq_true, if_false]
        refine ih _ _ (entriesWF_append_singleton stored _ h ?_)
        intro y hy hkey
        rw [toStored_entryKey] at hkey
        have hy2 := (is_duplicate_false_iff stored k e.employee e.date e.duration_decimal).mp
          hdup y hy
        unfold entryKey at hkey
        simp only [Prod.mk.injEq] at hkey
        exact hy2 ⟨hkey.1, hkey.2.1, hkey.2.2.1, hkey.2.2.2⟩

theorem importLoop_all_dup (pmap : List (String × Nat)) (b : Nat) :
    ∀ (es : List ParsedTimeEntry) (stored : List StoredEntry) (n : Nat),
      (∀ e ∈ es, ∀ k, mapGet pmap e.project_id = some k →
        _is_duplicate stored k e.employee e.date e.duration_decimal = true) →
      importLoop pmap b es stored n = (stored, n) := by
  intro es
  induction es with
  | nil => intro stored n _; rfl
  | cons e rest ih =>
    intro stored n h
    simp only [importLoop]
    cases hm : mapGet pmap e.project_id with
    | none => exact ih stored n fun x hx => h x (List.mem_cons_of_mem _ hx)
    | some k =>
      dsimp only
      rw [h e (List.mem_cons_self _ _) k hm]
      simp only [if_true]
      exact ih stored n fun x hx => h x (List.mem_cons_of_mem _ hx)

theorem importLoop_all_new (pmap : List (String × Nat)) (b : Nat)
    (hinj : ∀ pid1 pid2 k, mapGet pmap pid1 = some k → mapGet pmap pid2 = some k →
      pid1 = pid2) :
    ∀ (es : List ParsedTimeEntry) (stored : List StoredEntry) (n : Nat),
      (∀ e ∈ es, (mapGet pmap e.project_id).isSome) →
      ((es.map parsedKey).Nodup) →
      (∀ e ∈ es, ∀ k, mapGet pmap e.project_id = some k →
        _is_duplicate stored k e.employee e.date e.duration_decimal = false) →
      importLoop pmap b es stored n =
        (stored ++ es.map (fun e => toStored ((mapGet pmap e.project_id).getD 0) b e),
         n + es.length) := by
  intro es
  induction es with
  | nil => intro stored n _ _ _; simp [importLoop]
  | cons e rest ih =>
    intro stored n h1 h2 h3
    obtain ⟨k, hk⟩ := Option.isSome_iff_exists.mp (h1 e (List.mem_cons_self _ _))
    simp only [importLoop]
    rw [hk]
    dsimp only
    rw [h3 e (List.mem_cons_self _ _) k hk]
    simp only [Bool.false_eq_true, if_false]
    have h2' := h2
    rw [List.map_cons] at h2'
    have hnd := List.nodup_cons.mp h2'
    rw [ih (stored ++ [toStored k b e]) (n + 1)
      (fun x hx => h1 x (List.mem_cons_of_mem _ hx)) hnd.2 ?_]
    · simp only [Prod.mk.injEq]
      constructor
      · simp only [List.map_cons, hk, Option.getD_some, List.append_assoc,
          List.singleton_append]
      · simp only [List.length_cons]
        omega
    · intro e' he' k' hk'
      rw [is_duplicate_false_iff]
      intro y hy hprops
      rw [List.mem_append, List.mem_singleton] at hy
      rcases hy with hy | hy
      · exact (is_duplicate_false_iff stored k' e'.employee e'.date
          e'.duration_decimal).mp (h3 e' (List.mem_cons_of_mem _ he') k' hk') y hy hprops
      · subst hy
        obtain ⟨hp1, hp2, hp3, hp4⟩ := hprops
        have hkk : k = k' := hp1
        subst hkk
        have hpid : e.project_id = e'.project_id := hinj _ _ _ hk hk'
        have hp2' : e.employee = e'.employee := hp2
        have hp3' : e.date = e'.date := hp3
        have hp4' : e.duration_decimal = e'.duration_decimal := hp4
        have hkeys : parsedKey e = parsedKey e' := by
          unfold parsedKey
          rw [hpid, hp2', hp3', hp4']
        have : parsedKey e' ∈ rest.map parsedKey := List.mem_map_of_mem parsedKey he'
        rw [← hkeys] at this
        exact hnd.1 this

end BonusTracker

namespace BonusTracker

theorem ensure_step_frame (acc : Store × Nat) (p : ParsedProject) :
    ((_ensure_projects_step acc p).1).entries = (acc.1).entries ∧
    ((_ensure_projects_step acc p).1).next_batch_id = (acc.1).next_batch_id ∧
    ∃ l, ((_ensure_projects_step acc p).1).projects = (acc.1).projects ++ l := by
  unfold _ensure_projects_step
  split
  · exact ⟨rfl, rfl, [], by simp⟩
  · exact ⟨rfl, rfl, [_], rfl⟩

theorem ensure_step_covers (acc : Store × Nat) (p : ParsedProject) :
    ∃ q ∈ ((_ensure_projects_step acc p).1).projects, q.project_id = p.project_id := by
  unfold _ensure_projects_step
  split
  · rename_i hfound
    rw [Option.isSome_iff_exists] at hfound
    obtain ⟨q, hq⟩ := hfound
    have hpred := List.find?_some hq
    exact ⟨q, List.mem_of_find?_eq_some hq, eq_of_beq hpred⟩
  · exact ⟨_, List.mem_append_right _ (List.mem_singleton.mpr rfl), rfl⟩

theorem ensure_step_projectsWF (acc : Store × Nat) (p : ParsedProject)
    (h : ProjectsWF acc.1) : ProjectsWF ((_ensure_projects_step acc p).1) := by
  unfold _ensure_projects_step
  by_cases hfound : (((acc.1).projects.find? fun q => q.project_id == p.project_id).isSome)
  · rwa [if_pos hfound]
  · rw [if_neg hfound]
    obtain ⟨hb, hn1, hn2⟩ := h
    have habs : ∀ q ∈ (acc.1).projects, ¬(q.project_id == p.project_id) = true := by
      intro q hq hbeq
      exact hfound (List.find?_isSome.mpr ⟨q, hq, hbeq⟩)
    refine ⟨?_, ?_, ?_⟩
    · intro q hq
      rcases List.mem_append.mp hq with hq | hq
      · exact Nat.lt_succ_of_lt (hb q hq)
      · rw [List.mem_singleton] at hq
        subst hq
        exact Nat.lt_succ_self _
    · rw [List.map_append, List.nodup_append]
      refine ⟨hn1, by simp, ?_⟩
      intro a ha
      simp only [List.map_singleton, List.mem_singleton]
      intro hmem
      obtain ⟨q, hq, hqe⟩ := List.mem_map.mp ha
      rw [hmem] at hqe
      exact habs q hq (beq_iff_eq.mpr hqe)
    · rw [List.map_append, List.nodup_append]
      refine ⟨hn2, by simp, ?_⟩
      intro a ha
      simp only [List.map_singleton, List.mem_singleton]
      intro hmem
      obtain ⟨q, hq, hqe⟩ := List.mem_map.mp ha
      have hlt := hb q hq
      rw [hqe, hmem] at hlt
      exact absurd hlt (Nat.lt_irrefl _)

theorem ensure_foldl_frame :
    ∀ (ps : List ParsedProject) (acc : Store × Nat),
      ((ps.foldl _ensure_projects_step acc).1).entries = (acc.1).entries ∧
      ((ps.foldl _ensure_projects_step acc).1).next_batch_id = (acc.1).next_batch_id ∧
      ∃ l, ((ps.foldl _ensure_projects_step acc).1).projects = (acc.1).projects ++ l := by
  intro ps
  induction ps with
  | nil => intro acc; exact ⟨rfl, rfl, [], by simp⟩
  | cons p rest ih =>
    intro acc
    rw [List.foldl_cons]
    obtain ⟨h1, h2, l, h3⟩ := ih (_ensure_projects_step acc p)
    obtain ⟨s1, s2, l0, s3⟩ := ensure_step_frame acc p
    exact ⟨h1.trans s1, h2.trans s2, l0 ++ l, by rw [h3, s3, List.append_assoc]⟩

theorem ensure_foldl_coverage :
    ∀ (ps : List ParsedProject) (acc : Store × Nat), ∀ p ∈ ps,
      ∃ q ∈ ((ps.foldl _ensure_projects_step acc).1).projects,
        q.project_id = p.project_id := by
  intro ps
  induction ps with
  | nil => intro acc p hp; exact absurd hp (by simp)
  | cons p0 rest ih =>
    intro acc p hp
    rw [List.foldl_cons]
    rcases List.mem_cons.mp hp with hp | hp
    · subst hp
      obtain ⟨q, hq, hqe⟩ := ensure_step_covers acc p
      obtain ⟨-, -, l, hl⟩ := ensure_foldl_frame rest (_ensure_projects_step acc p)
      exact ⟨q, by rw [hl]; exact List.mem_append_left _ hq, hqe⟩
    · exact ih (_ensure_projects_step acc p0) p hp

theorem ensure_foldl_noop :
    ∀ (ps : List ParsedProject) (acc : Store × Nat),
      (∀ p ∈ ps, ∃ q ∈ (acc.1).projects, q.project_id = p.project_id) →
      ps.foldl _ensure_projects_step acc = acc := by
  intro ps
  induction ps with
  | nil => intro acc _; rfl
  | cons p rest ih =>
    intro acc h
    rw [List.foldl_cons]
    have hstep : _ensure_projects_step acc p = acc := by
      obtain ⟨q, hq, hqe⟩ := h p (List.mem_cons_self _ _)
      have hfound : (((acc.1).projects.find? fun q => q.project_id == p.project_id).isSome) =
          true :=
        List.find?_isSome.mpr ⟨q, hq, beq_iff_eq.mpr hqe⟩
      unfold _ensure_projects_step
      rw [if_pos hfound]
    rw [hstep]
    exact ih acc fun x hx => h x (List.mem_cons_of_mem _ hx)

theorem ensure_foldl_projectsWF :
    ∀ (ps : List ParsedProject) (acc : Store × Nat),
      ProjectsWF acc.1 → ProjectsWF ((ps.foldl _ensure_projects_step acc).1) := by
  intro ps
  induction ps with
  | nil => intro acc h; exact h
  | cons p rest ih =>
    intro acc h
    rw [List.foldl_cons]
    exact ih _ (ensure_step_projectsWF acc p h)

theorem mapGet_isSome_of_present (st : Store) (pid : String)
    (h : ∃ q ∈ st.projects, q.project_id = pid) :
    ∃ k, mapGet (_build_project_map st) pid = some k := by
  obtain ⟨q, hq, hqe⟩ := h
  cases hfind : ((_build_project_map st).reverse.find? fun p => p.1 == pid) with
  | none =>
    exfalso
    have hall := List.find?_eq_none.mp hfind
    refine hall (q.project_id, q.id) ?_ (beq_iff_eq.mpr hqe)
    rw [List.mem_reverse]
    exact List.mem_map_of_mem (fun r => (r.project_id, r.id)) hq
  | some x =>
    exact ⟨x.2, by simp [mapGet, hfind]⟩

theorem mapGet_sound (st : Store) (pid : String) (k : Nat)
    (h : mapGet (_build_project_map st) pid = some k) :
    ∃ q ∈ st.projects, q.project_id = pid ∧ q.id = k := by
  unfold mapGet at h
  cases hfind : ((_build_project_map st).reverse.find? fun p => p.1 == pid) with
  | none => rw [hfind] at h; exact absurd h (by simp)
  | some x =>
    rw [hfind] at h
    simp only [Option.map_some', Option.some.injEq] at h
    have hpred := List.find?_some hfind
    have hmem : x ∈ _build_project_map st :=
      List.mem_reverse.mp (List.mem_of_find?_eq_some hfind)
    obtain ⟨q, hq, hqe⟩ := List.mem_map.mp hmem
    refine ⟨q, hq, ?_, ?_⟩
    · have hx1 : x.1 = pid := eq_of_beq hpred
      rw [← hx1, ← hqe]
    · rw [← h, ← hqe]

theorem mapGet_inj (st : Store) (hwf : (st.projects.map DbProject.id).Nodup)
    (pid1 pid2 : String) (k : Nat)
    (h1 : mapGet (_build_project_map st) pid1 = some k)
    (h2 : mapGet (_build_project_map st) pid2 = some k) : pid1 = pid2 := by
  obtain ⟨q1, hq1, hq1e, hq1k⟩ := mapGet_sound st pid1 k h1
  obtain ⟨q2, hq2, hq2e, hq2k⟩ := mapGet_sound st pid2 k h2
  have hq : q1 = q2 := List.inj_on_of_nodup_map hwf hq1 hq2 (by rw [hq1k, hq2k])
  rw [← hq1e, ← hq2e, hq]

end BonusTracker

namespace BonusTracker

theorem ensure_frame (ps : List ParsedProject) (st : Store) :
    ((_ensure_projects ps st).1).entries = st.entries ∧
    ((_ensure_projects ps st).1).next_batch_id = st.next_batch_id ∧
    ∃ l, ((_ensure_projects ps st).1).projects = st.projects ++ l :=
  ensure_foldl_frame ps (st, 0)

theorem ensure_coverage (ps : List ParsedProject) (st : Store) :
    ∀ p ∈ ps, ∃ q ∈ ((_ensure_projects ps st).1).projects, q.project_id = p.project_id :=
  ensure_foldl_coverage ps (st, 0)

theorem ensure_noop (ps : List ParsedProject) (st : Store)
    (h : ∀ p ∈ ps, ∃ q ∈ st.projects, q.project_id = p.project_id) :
    _ensure_projects ps st = (st, 0) :=
  ensure_foldl_noop ps (st, 0) h

theorem ensure_projectsWF (ps : List ParsedProject) (st : Store) (h : ProjectsWF st) :
    ProjectsWF ((_ensure_projects ps st).1) :=
  ensure_foldl_projectsWF ps (st, 0) h

theorem parse_isEmpty_false (content : String) (hne : (parse_csv content).entries ≠ []) :
    (parse_csv content).entries.isEmpty = false := by
  cases hl : (parse_csv content).entries with
  | nil => exact absurd hl hne
  | cons a l => rfl

theorem upload_csv_ok_eq (content : String) (st : Store)
    (hne : (parse_csv content).entries ≠ []) :
    upload_csv content st = .ok
      ({ (_ensure_projects (parse_csv content).projects st).1 with
          entries :=
            (importLoop (_build_project_map (_ensure_projects (parse_csv content).projects st).1)
              ((_ensure_projects (parse_csv content).projects st).1).next_batch_id
              (parse_csv content).entries
              ((_ensure_projects (parse_csv content).projects st).1).entries 0).1,
          next_batch_id :=
            ((_ensure_projects (parse_csv content).projects st).1).next_batch_id + 1 },
       { batch_id := ((_ensure_projects (parse_csv content).projects st).1).next_batch_id,
         rows_imported :=
           (importLoop (_build_project_map (_ensure_projects (parse_csv content).projects st).1)
             ((_ensure_projects (parse_csv content).projects st).1).next_batch_id
             (parse_csv content).entries
             ((_ensure_projects (parse_csv content).projects st).1).entries 0).2,
         projects_created := (_ensure_projects (parse_csv content).projects st).2,
         projects_updated := 0 }) := by
  simp only [upload_csv, parse_isEmpty_false content hne, Bool.false_eq_true, if_false]

theorem upload_entriesWF (content : String) (st st' : Store) (r : ImportResult)
    (h : upload_csv content st = .ok (st', r)) (hwf : EntriesWF st.entries) :
    EntriesWF st'.entries := by
  by_cases hne : (parse_csv content).entries = []
  · have hcond : (parse_csv content).entries.isEmpty = true := by rw [hne]; rfl
    simp only [upload_csv, hcond, if_true] at h
    exact Except.noConfusion h
  · rw [upload_csv_ok_eq content st hne] at h
    injection h with h1
    injection h1 with hA hB
    subst hA
    show EntriesWF
      (importLoop (_build_project_map (_ensure_projects (parse_csv content).projects st).1)
        ((_ensure_projects (parse_csv content).projects st).1).next_batch_id
        (parse_csv content).entries
        ((_ensure_projects (parse_csv content).projects st).1).entries 0).1
    refine importLoop_entriesWF _ _ _ _ _ ?_
    rw [(ensure_frame (parse_csv content).projects st).1]
    exact hwf

theorem applyImports_entriesWF :
    ∀ (contents : List String) (st : Store),
      EntriesWF st.entries → EntriesWF (applyImports contents st).entries := by
  intro contents
  induction contents with
  | nil => intro st h; exact h
  | cons c rest ih =>
    intro st h
    have hstep : EntriesWF
        (match upload_csv c st with
          | .ok r => r.1
          | .error _ => st).entries := by
      cases hu : upload_csv c st with
      | error e => exact h
      | ok r => exact upload_entriesWF c st r.1 r.2 hu h
    simp only [applyImports, List.foldl_cons]
    exact ih _ hstep

end BonusTracker

namespace BonusTracker

theorem emptyStore_projectsWF : ProjectsWF emptyStore := by
  refine ⟨?_, ?_, ?_⟩
  · intro p hp
    exact absurd hp (by simp [emptyStore])
  · simp [emptyStore]
  · simp [emptyStore]

theorem upload_csv_fresh_eq (content : String)
    (hne : (parse_csv content).entries ≠ [])
    (hnd : ((parse_csv content).entries.map parsedKey).Nodup) :
    upload_csv content emptyStore = .ok
      ({ (_ensure_projects (parse_csv content).projects emptyStore).1 with
          entries := (parse_csv content).entries.map (fun e =>
            toStored
              ((mapGet
                (_build_project_map (_ensure_projects (parse_csv content).projects emptyStore).1)
                e.project_id).getD 0)
              ((_ensure_projects (parse_csv content).projects emptyStore).1).next_batch_id e),
          next_batch_id :=
            ((_ensure_projects (parse_csv content).projects emptyStore).1).next_batch_id + 1 },
       { batch_id :=
           ((_ensure_projects (parse_csv content).projects emptyStore).1).next_batch_id,
         rows_imported := (parse_csv content).entries.length,
         projects_created := (_ensure_projects (parse_csv content).projects emptyStore).2,
         projects_updated := 0 }) := by
  have hAent := (ensure_frame (parse_csv content).projects emptyStore).1
  have hAwf : ProjectsWF ((_ensure_projects (parse_csv content).projects emptyStore).1) :=
    ensure_projectsWF _ _ emptyStore_projectsWF
  have hlookup : ∀ e ∈ (parse_csv content).entries,
      (mapGet
        (_build_project_map (_ensure_projects (parse_csv content).projects emptyStore).1)
        e.project_id).isSome := by
    intro e he
    obtain ⟨p, hp, hpe⟩ := parse_csv_entries_project_mem content e he
    obtain ⟨q, hq, hqe⟩ := ensure_coverage (parse_csv content).projects emptyStore p hp
    obtain ⟨k, hk⟩ := mapGet_isSome_of_present _ e.project_id ⟨q, hq, by rw [hqe, hpe]⟩
    rw [hk]
    rfl
  have hzero : ∀ e ∈ (parse_csv content).entries, ∀ k,
      mapGet (_build_project_map (_ensure_projects (parse_csv content).projects emptyStore).1)
        e.project_id = some k →
      _is_duplicate ((_ensure_projects (parse_csv content).projects emptyStore).1).entries
        k e.employee e.date e.duration_decimal = false := by
    intro e he k hk
    rw [hAent]
    rfl
  have hloop := importLoop_all_new
    (_build_project_map (_ensure_projects (parse_csv content).projects emptyStore).1)
    ((_ensure_projects (parse_csv content).projects emptyStore).1).next_batch_id
    (fun p1 p2 k h1 h2 => mapGet_inj _ hAwf.2.2 p1 p2 k h1 h2)
    (parse_csv content).entries
    ((_ensure_projects (parse_csv content).projects emptyStore).1).entries 0
    hlookup hnd hzero
  rw [upload_csv_ok_eq content emptyStore hne, hloop, hAent]
  simp only [emptyStore, List.nil_append, Nat.zero_add]

theorem upload_csv_dup_eq (content : String) (st : Store)
    (hne : (parse_csv content).entries ≠ [])
    (hcov : ∀ p ∈ (parse_csv content).projects, ∃ q ∈ st.projects,
      q.project_id = p.project_id)
    (hdup : ∀ e ∈ (parse_csv content).entries, ∀ k,
      mapGet (_build_project_map st) e.project_id = some k →
      _is_duplicate st.entries k e.employee e.date e.duration_decimal = true) :
    upload_csv content st = .ok
      ({ st with next_batch_id := st.next_batch_id + 1 },
       { batch_id := st.next_batch_id, rows_imported := 0, projects_created := 0,
         projects_updated := 0 }) := by
  have hens := ensure_noop (parse_csv content).projects st hcov
  have hloop := importLoop_all_dup (_build_project_map st) st.next_batch_id
    (parse_csv content).entries st.entries 0 hdup
  rw [upload_csv_ok_eq content st hne]
  rw [hens]
  dsimp only
  rw [hloop]

end BonusTracker

namespace BonusTracker

/-! ### Claim C6: duplicate suppression on import -/

/-- C6: after any sequence of imports into an initially empty store no two
stored time entries agree on (project, employee, date, duration) — the
session autoflushes, so the duplicate check also sees rows added earlier in
the same batch — and importing a CSV whose valid entries have pairwise
distinct duplicate keys into an empty store imports all of them, while a
second import of the same content imports `0` rows and creates `0`
projects. -/
theorem import_dedup_and_idempotence :
    (∀ contents : List String, EntriesWF (applyImports contents emptyStore).entries) ∧
    (∀ content : String,
      (parse_csv content).entries ≠ [] →
      ((parse_csv content).entries.map parsedKey).Nodup →
      ∃ st1 r1 st2 r2,
        upload_csv content emptyStore = .ok (st1, r1) ∧
        r1.rows_imported = (parse_csv content).entries.length ∧
        upload_csv content st1 = .ok (st2, r2) ∧
        r2.rows_imported = 0 ∧ r2.projects_created = 0) := by
  constructor
  · intro contents
    exact applyImports_entriesWF contents emptyStore List.Pairwise.nil
  · intro content hne hnd
    refine ⟨_, _, _, _, upload_csv_fresh_eq content hne hnd, rfl,
      upload_csv_dup_eq content _ hne ?_ ?_, rfl, rfl⟩
    · intro p hp
      exact ensure_coverage (parse_csv content).projects emptyStore p hp
    · intro e he k hk
      have hk' : mapGet
          (_build_project_map (_ensure_projects (parse_csv content).projects emptyStore).1)
          e.project_id = some k := hk
      have hmem := List.mem_map_of_mem (fun x : ParsedTimeEntry =>
        toStored
          ((mapGet
            (_build_project_map (_ensure_projects (parse_csv content).projects emptyStore).1)
            x.project_id).getD 0)
          ((_ensure_projects (parse_csv content).projects emptyStore).1).next_batch_id x) he
      dsimp only at hmem
      rw [hk', Option.getD_some] at hmem
      exact is_duplicate_true_of_mem _ _ hmem

/-- Witness for C6 on a concrete two-row file imported into the empty
store. -/
theorem import_dedup_and_idempotence_witness :
    EntriesWF (applyImports
      ["Project,Start Date,Duration (decimal),User\nA - 7,05/01/2024,2,Bob"]
      emptyStore).entries ∧
    (∃ st1 r1 st2 r2,
      upload_csv "Project,Start Date,Duration (decimal),User\nA - 7,05/01/2024,2,Bob"
          emptyStore = .ok (st1, r1) ∧
      r1.rows_imported =
        (parse_csv
          "Project,Start Date,Duration (decimal),User\nA - 7,05/01/2024,2,Bob").entries.length ∧
      upload_csv "Project,Start Date,Duration (decimal),User\nA - 7,05/01/2024,2,Bob" st1 =
        .ok (st2, r2) ∧
      r2.rows_imported = 0 ∧ r2.projects_created = 0) :=
  ⟨import_dedup_and_idempotence.1
      ["Project,Start Date,Duration (decimal),User\nA - 7,05/01/2024,2,Bob"],
   import_dedup_and_idempotence.2
      "Project,Start Date,Duration (decimal),User\nA - 7,05/01/2024,2,Bob"
      (by decide) (by with_unfolding_all decide)⟩

end BonusTracker
